import Mathlib

/-!
Shallow embedding of the pipeline-runner execution engine.

The definitions below translate the control flow of
`pipeline_runner/__init__.py` (pipeline driver, step lifecycle,
parallel branch executor, clone-settings resolution) and
`pipeline_runner/cache.py` (cache transfer engine) into pure Lean
functions.  External collaborators (container engine, services
manager, artifact manager, filesystem) are abstracted by an
environment record `StepEnv` that fixes the outcome of every
collaborator call; each engine function returns its result as an
`Except` value paired with the ordered trace of collaborator events
it performed.
-/

namespace PipelineRunner

/-- Tri-state clone settings: each field is true / false / unset
(models `CloneSettings` with optional fields from models.py). -/
structure CloneSettings where
  enabled : Option Bool
  lfs : Option Bool
  depth : Option Nat
  deriving DecidableEq, Repr

/-- Modelled from the spec: the function CloneSettings.default() is defined in
models.py, which is not among the provided sources.  The spec fixes the
built-in system default as enabled=true, lfs=true, depth=unset (full
history), and requires it to be the final fallback of the cascade. -/
def CloneSettings.default : CloneSettings :=
  ⟨some true, some true, none⟩

/-- First non-unset value of a list of optionals: models the
`for v in (...): if v is not None: return v` loops of
`_should_clone`, `_should_clone_lfs` and `_get_clone_depth`. -/
def firstSet {α : Type} : List (Option α) → Option α
  | [] => none
  | some v :: _ => some v
  | none :: rest => firstSet rest

/-- Python truthiness of an optional boolean (None is falsy). -/
def optTruthy : Option Bool → Bool
  | some b => b
  | none => false

/-- Models `StepRunner._should_clone`: first non-None among the step
override, the pipeline-level default and the system default. -/
def shouldCloneOpt (s d : CloneSettings) : Option Bool :=
  firstSet [s.enabled, d.enabled, CloneSettings.default.enabled]

/-- Models `StepRunner._should_clone_lfs`. -/
def shouldCloneLfsOpt (s d : CloneSettings) : Option Bool :=
  firstSet [s.lfs, d.lfs, CloneSettings.default.lfs]

/-- Models `StepRunner._get_clone_depth`. -/
def getCloneDepth (s d : CloneSettings) : Option Nat :=
  firstSet [s.depth, d.depth, CloneSettings.default.depth]

/-- The argv list built by `StepRunner._clone_repository` (lines
183-194): LFS smudge suppression when LFS is off, the branch flag, a
depth flag only when the resolved depth is truthy, then source and
target. -/
def buildCloneCmd (lfs : Bool) (depth : Option Nat) (branch workspaceDir : String) :
    List String :=
  (if lfs then [] else ["GIT_LFS_SKIP_SMUDGE=1"]) ++
    ["git", "clone", "--branch", branch] ++
    (match depth with
      | some d => if d = 0 then [] else ["--depth", toString d]
      | none => []) ++
    ["file://" ++ workspaceDir, "$BUILD_DIR"]

/-- A cache definition: its remote path (models `Cache` of models.py
at the granularity the engine uses). -/
structure Cache where
  path : String
  deriving DecidableEq, Repr

/-- A simple step (models `Step` of models.py at the granularity the
engine uses). -/
structure Step where
  name : String
  script : List String
  afterScript : List String
  image : Option String
  cloneSettings : CloneSettings
  size : Nat
  services : List String
  caches : List String
  artifacts : List String
  deriving DecidableEq, Repr

/-- The parsed definitions the engine reads (models the `Pipelines`
definition set: global image, global clone settings, cache map). -/
structure Pipelines where
  image : Option String
  cloneSettings : CloneSettings
  caches : List (String × Cache)
  deriving DecidableEq, Repr

/-- Observable collaborator events performed by the engine, in
program order. -/
inductive Ev where
  | startServices
  | containerStart
  | runCmd (cmd : List String)
  | artifactsUpload
  | artifactsDownload (patterns : List String)
  | script
  | afterScript (exitCode : Int)
  | warnSkipCaches
  | cacheUploadCall (name : String)
  | cachePrepareCmd (name : String)
  | cachePutArchive (name : String)
  | cacheDownloadCall (name : String)
  | cacheOpenWrite (name : String)
  | cacheGetArchive (name : String)
  | cacheWriteChunk (name : String) (size : Nat)
  | stopServices
  | containerStop
  deriving DecidableEq, Repr

/-- Exceptions the engine can raise. -/
inductive Err where
  | startServicesError
  | containerStartError
  | cloneError
  | resetError
  | artifactsUploadError
  | invalidCache (name : String)
  | uploadCacheError (name : String)
  | getArchiveError (name : String)
  | scriptError
  | afterScriptError
  | artifactsDownloadError
  | stopServicesError
  | containerStopError
  deriving DecidableEq, Repr

/-- Environment fixing the outcome of every external collaborator
call made during one step execution. -/
structure StepEnv where
  selectedSteps : List String
  startServicesRaises : Bool
  containerStartRaises : Bool
  gitBranch : String
  remoteWorkspaceDir : String
  cloneExit : Int
  resetExit : Int
  artifactsUploadRaises : Bool
  localArchiveExists : String → Bool
  prepareCmdExit : String → Int
  putArchiveOk : String → Bool
  expandPath : String → String
  getArchiveRaises : String → Bool
  chunkSizes : String → List Nat
  scriptRaises : Bool
  scriptExit : Int
  afterScriptRaises : Bool
  artifactsDownloadRaises : Bool
  stopServicesRaises : Bool
  containerStopRaises : Bool

/-- Models `CacheManager._should_ignore`: the built-in ignore set is
the singleton named docker cache. -/
def shouldIgnore (name : String) : Bool :=
  name == "docker"

/-- Models `CacheManager._get_remote_directory`: an unknown cache
name raises a ValueError, otherwise the declared path is expanded by
the container collaborator. -/
def getRemoteDirectory (defs : List (String × Cache)) (env : StepEnv) (name : String) :
    Except Err String :=
  match List.lookup name defs with
  | none => .error (.invalidCache name)
  | some c => .ok (env.expandPath c.path)

/-- Models `CacheManager._upload_cache`: ignore-set check, local
archive existence check (silent skip when absent), remote directory
resolution, remote preparation command, archive streaming. -/
def uploadCache (defs : List (String × Cache)) (env : StepEnv) (name : String) :
    Except Err Unit × List Ev :=
  if shouldIgnore name then (.ok (), [Ev.cacheUploadCall name])
  else if !env.localArchiveExists name then (.ok (), [Ev.cacheUploadCall name])
  else
    match getRemoteDirectory defs env name with
    | .error e => (.error e, [Ev.cacheUploadCall name])
    | .ok _ =>
      if env.prepareCmdExit name ≠ 0 then
        (.error (.uploadCacheError name), [Ev.cacheUploadCall name, Ev.cachePrepareCmd name])
      else if !env.putArchiveOk name then
        (.error (.uploadCacheError name),
          [Ev.cacheUploadCall name, Ev.cachePrepareCmd name, Ev.cachePutArchive name])
      else
        (.ok (), [Ev.cacheUploadCall name, Ev.cachePrepareCmd name, Ev.cachePutArchive name])

/-- Models `CacheManager.upload`: uploads each named cache in order,
a raised error aborting the remaining names. -/
def uploadCaches (defs : List (String × Cache)) (env : StepEnv) :
    List String → Except Err Unit × List Ev
  | [] => (.ok (), [])
  | n :: rest =>
    match uploadCache defs env n with
    | (.error e, t) => (.error e, t)
    | (.ok _, t) =>
      let r := uploadCaches defs env rest
      (r.1, t ++ r.2)

/-- Models `CacheManager._download_cache`: ignore-set check, remote
directory resolution (raises before any transfer), then the local
archive file is opened for writing (truncating it) before the
archive stream is requested from the container and consumed chunk by
chunk. -/
def downloadCache (defs : List (String × Cache)) (env : StepEnv) (name : String) :
    Except Err Unit × List Ev :=
  if shouldIgnore name then (.ok (), [Ev.cacheDownloadCall name])
  else
    match getRemoteDirectory defs env name with
    | .error e => (.error e, [Ev.cacheDownloadCall name])
    | .ok _ =>
      if env.getArchiveRaises name then
        (.error (.getArchiveError name),
          [Ev.cacheDownloadCall name, Ev.cacheOpenWrite name, Ev.cacheGetArchive name])
      else
        (.ok (),
          [Ev.cacheDownloadCall name, Ev.cacheOpenWrite name, Ev.cacheGetArchive name] ++
            (env.chunkSizes name).map (Ev.cacheWriteChunk name))

/-- Models `CacheManager.download`: downloads each named cache in
order, a raised error aborting the remaining names. -/
def downloadCaches (defs : List (String × Cache)) (env : StepEnv) :
    List String → Except Err Unit × List Ev
  | [] => (.ok (), [])
  | n :: rest =>
    match downloadCache defs env n with
    | (.error e, t) => (.error e, t)
    | (.ok _, t) =>
      let r := downloadCaches defs env rest
      (r.1, t ++ r.2)

/-- Models `StepRunner._should_run`: skip when a non-empty selection
exists and does not contain this step. -/
def shouldRunStep (selectedSteps : List String) (name : String) : Bool :=
  !(!selectedSteps.isEmpty && !selectedSteps.contains name)

/-- Models `StepRunner._clone_repository`: skipped entirely when the
resolved enabled flag is falsy; otherwise the clone command then the
reset command run, each raising on a non-zero exit code. -/
def cloneRepository (step : Step) (defs : Pipelines) (env : StepEnv) :
    Except Err Unit × List Ev :=
  if !optTruthy (shouldCloneOpt step.cloneSettings defs.cloneSettings) then (.ok (), [])
  else
    let cmd := buildCloneCmd
      (optTruthy (shouldCloneLfsOpt step.cloneSettings defs.cloneSettings))
      (getCloneDepth step.cloneSettings defs.cloneSettings)
      env.gitBranch env.remoteWorkspaceDir
    if env.cloneExit ≠ 0 then (.error .cloneError, [Ev.runCmd cmd])
    else if env.resetExit ≠ 0 then
      (.error .resetError,
        [Ev.runCmd cmd, Ev.runCmd ["git", "reset", "--hard", "$BITBUCKET_COMMIT"]])
    else
      (.ok (),
        [Ev.runCmd cmd, Ev.runCmd ["git", "reset", "--hard", "$BITBUCKET_COMMIT"]])

/-- Models `StepRunner._build_setup`: checkout, then artifact
restore, then cache restore, an error aborting the rest. -/
def buildSetup (step : Step) (defs : Pipelines) (env : StepEnv) :
    Except Err Unit × List Ev :=
  match cloneRepository step defs env with
  | (.error e, t) => (.error e, t)
  | (.ok _, t) =>
    let t := t ++ [Ev.artifactsUpload]
    if env.artifactsUploadRaises then (.error .artifactsUploadError, t)
    else
      let r := uploadCaches defs.caches env step.caches
      (r.1, t ++ r.2)

/-- Models `StepRunner._download_caches`: cache persist only when the
script exit code is exactly zero, otherwise a warning. -/
def downloadCachesStep (step : Step) (defs : Pipelines) (env : StepEnv) (exitCode : Int) :
    Except Err Unit × List Ev :=
  if exitCode == 0 then downloadCaches defs.caches env step.caches
  else (.ok (), [Ev.warnSkipCaches])

/-- Models `StepRunner._build_teardown`: cache persist gate, then
artifact persist, then the no-op service-stop hook. -/
def buildTeardown (step : Step) (defs : Pipelines) (env : StepEnv) (exitCode : Int) :
    Except Err Unit × List Ev :=
  match downloadCachesStep step defs env exitCode with
  | (.error e, t) => (.error e, t)
  | (.ok _, t) =>
    let t := t ++ [Ev.artifactsDownload step.artifacts]
    if env.artifactsDownloadRaises then (.error .artifactsDownloadError, t)
    else (.ok (), t)

/-- Models the try-block of `StepRunner.run` (lines 102-127): start
services, start the container, build setup, script, after-script,
build teardown; the first raised error aborts the rest of the
block. -/
def tryBody (step : Step) (defs : Pipelines) (env : StepEnv) :
    Except Err Int × List Ev :=
  if env.startServicesRaises then (.error .startServicesError, [Ev.startServices])
  else if env.containerStartRaises then
    (.error .containerStartError, [Ev.startServices, Ev.containerStart])
  else
    match buildSetup step defs env with
    | (.error e, ts) => (.error e, [Ev.startServices, Ev.containerStart] ++ ts)
    | (.ok _, ts) =>
      let t := [Ev.startServices, Ev.containerStart] ++ ts ++ [Ev.script]
      if env.scriptRaises then (.error .scriptError, t)
      else
        let ec := env.scriptExit
        let t := t ++ [Ev.afterScript ec]
        if env.afterScriptRaises then (.error .afterScriptError, t)
        else
          match buildTeardown step defs env ec with
          | (.error e, t2) => (.error e, t ++ t2)
          | (.ok _, t2) => (.ok ec, t ++ t2)

/-- Models the finally-block of `StepRunner.run` (lines 128-133): the
services manager, when assigned, is stopped first; only if that stop
does not raise is the container, when assigned, stopped.  An error
raised here replaces any in-flight error, as in Python. -/
def finallyBlock (containerAssigned : Bool) (env : StepEnv) :
    Except Err Unit × List Ev :=
  if env.stopServicesRaises then (.error .stopServicesError, [Ev.stopServices])
  else if containerAssigned then
    if env.containerStopRaises then
      (.error .containerStopError, [Ev.stopServices, Ev.containerStop])
    else (.ok (), [Ev.stopServices, Ev.containerStop])
  else (.ok (), [Ev.stopServices])

/-- Models `StepRunner.run`: the skip check, then the try-block with
its unconditional finally-block.  The container runner field is
assigned only after the services started, so the finally-block stops
the container exactly when service start did not raise. -/
def stepRun (step : Step) (defs : Pipelines) (env : StepEnv) :
    Except Err (Option Int) × List Ev :=
  if !shouldRunStep env.selectedSteps step.name then (.ok none, [])
  else
    let body := tryBody step defs env
    let fin := finallyBlock (!env.startServicesRaises) env
    let trace := body.2 ++ fin.2
    match fin.1 with
    | .error e => (.error e, trace)
    | .ok _ =>
      match body.1 with
      | .error e => (.error e, trace)
      | .ok ec => (.ok (some ec), trace)

/-- Python truthiness of an optional integer exit code. -/
def optIntTruthy : Option Int → Bool
  | some e => e != 0
  | none => false

/-- Models `PipelineRunner._execute_pipeline`: run the steps in
order over their produced results, returning the first truthy exit
code, together with the number of steps actually executed. -/
def executePipeline : List (Option Int) → Option Int × Nat
  | [] => (none, 0)
  | rc :: rest =>
    if optIntTruthy rc then (rc, 1)
    else
      let r := executePipeline rest
      (r.1, r.2 + 1)

/-- Models the loop of `ParallelStepRunner.run` with the identifiers
it hands to each child runner: every child is dispatched with the
pipeline uuid and the step uuid of the parallel group itself, and a
truthy child result overwrites the accumulated return code. -/
def parallelRunAux (pipelineUuid stepUuid : Nat) (acc : Int) :
    List (Option Int) → Int × List (Nat × Nat)
  | [] => (acc, [])
  | rc :: rest =>
    let acc2 := match rc with
      | some e => if e ≠ 0 then e else acc
      | none => acc
    let r := parallelRunAux pipelineUuid stepUuid acc2 rest
    (r.1, (pipelineUuid, stepUuid) :: r.2)

/-- Models `ParallelStepRunner.run`: initial return code zero. -/
def parallelRun (pipelineUuid stepUuid : Nat) (childResults : List (Option Int)) :
    Int × List (Nat × Nat) :=
  parallelRunAux pipelineUuid stepUuid 0 childResults

/-- Specification-side description of the parallel reduction: the
last non-zero exit code among the children, or zero. -/
def lastNonZeroResult (childResults : List (Option Int)) : Int :=
  match (childResults.reverse.filterMap id).find? (fun e => e != 0) with
  | some e => e
  | none => 0

/-- Specification-side description of the cascading lookup: the
first non-unset among a step-level value, a pipeline-level value and
the system default. -/
def cascade {α : Type} (stepVal pipelineVal sysDefault : Option α) : Option α :=
  match stepVal with
  | some v => some v
  | none =>
    match pipelineVal with
    | some v => some v
    | none => sysDefault

/-- Events a setup phase may emit: no release events, no cache
download calls, no skip warning. -/
def setupSafeEv : Ev → Bool
  | .stopServices => false
  | .containerStop => false
  | .cacheDownloadCall _ => false
  | .warnSkipCaches => false
  | _ => true

/-- Events a successful cache-persist phase may emit: no release
events, no skip warning. -/
def teardownSafeEv : Ev → Bool
  | .stopServices => false
  | .containerStop => false
  | .warnSkipCaches => false
  | _ => true

/-- Events the try-block may emit: anything but a release event. -/
def bodyEv : Ev → Bool
  | .stopServices => false
  | .containerStop => false
  | _ => true

/-- Extracts the cache name of a cache-download invocation event. -/
def Ev.downloadCallName : Ev → Option String
  | .cacheDownloadCall n => some n
  | _ => none

theorem setupSafeEv_body {ev : Ev} (h : setupSafeEv ev = true) : bodyEv ev = true := by
  cases ev <;> simp_all [setupSafeEv, bodyEv]

theorem teardownSafeEv_body {ev : Ev} (h : teardownSafeEv ev = true) : bodyEv ev = true := by
  cases ev <;> simp_all [teardownSafeEv, bodyEv]

theorem setupSafeEv_dcn {ev : Ev} (h : setupSafeEv ev = true) :
    Ev.downloadCallName ev = none := by
  cases ev <;> simp_all [setupSafeEv, Ev.downloadCallName]

theorem setupSafeEv_warn {ev : Ev} (h : setupSafeEv ev = true) :
    ev ≠ Ev.warnSkipCaches := by
  cases ev <;> simp_all [setupSafeEv]

theorem teardownSafeEv_warn {ev : Ev} (h : teardownSafeEv ev = true) :
    ev ≠ Ev.warnSkipCaches := by
  cases ev <;> simp_all [teardownSafeEv]

theorem all_imp {α : Type} {p q : α → Bool} (h : ∀ a, p a = true → q a = true)
    (l : List α) (hl : l.all p = true) : l.all q = true := by
  rw [List.all_eq_true] at hl ⊢
  exact fun a ha => h a (hl a ha)

theorem filterMap_none_of_all {α β : Type} {p : α → Bool} {f : α → Option β}
    (h : ∀ a, p a = true → f a = none) (l : List α) (hl : l.all p = true) :
    l.filterMap f = [] := by
  induction l with
  | nil => rfl
  | cons a l ih =>
    rw [List.all_cons, Bool.and_eq_true] at hl
    rw [List.filterMap_cons, h a hl.1, ih hl.2]

theorem not_mem_of_all {α : Type} {p : α → Bool} {a : α} (hpa : p a = false)
    (l : List α) (hl : l.all p = true) : a ∉ l := by
  intro ha
  rw [List.all_eq_true] at hl
  have hcontra := hl a ha
  rw [hpa] at hcontra
  exact Bool.false_ne_true hcontra

theorem uploadCache_all_setupSafe (defs : List (String × Cache)) (env : StepEnv)
    (name : String) : ((uploadCache defs env name).2.all setupSafeEv) = true := by
  unfold uploadCache
  repeat' split
  all_goals rfl

theorem uploadCaches_all_setupSafe (defs : List (String × Cache)) (env : StepEnv)
    (names : List String) : ((uploadCaches defs env names).2.all setupSafeEv) = true := by
  induction names with
  | nil => rfl
  | cons n rest ih =>
    unfold uploadCaches
    have ht := uploadCache_all_setupSafe defs env n
    rcases h : uploadCache defs env n with ⟨r, t⟩
    rw [h] at ht
    cases r with
    | error e => simpa using ht
    | ok u => simp [List.all_append, ht, ih]

theorem cloneRepository_all_setupSafe (step : Step) (defs : Pipelines) (env : StepEnv) :
    ((cloneRepository step defs env).2.all setupSafeEv) = true := by
  unfold cloneRepository
  dsimp only
  repeat' split
  all_goals rfl

theorem buildSetup_all_setupSafe (step : Step) (defs : Pipelines) (env : StepEnv) :
    ((buildSetup step defs env).2.all setupSafeEv) = true := by
  have hc := cloneRepository_all_setupSafe step defs env
  have hu := uploadCaches_all_setupSafe defs.caches env step.caches
  unfold buildSetup
  rcases h : cloneRepository step defs env with ⟨r, t⟩
  rw [h] at hc
  cases r with
  | error e => simpa using hc
  | ok u =>
    dsimp only
    split
    · simp only [List.all_append] at hc ⊢
      simp [hc, setupSafeEv]
    · simp only [List.all_append, List.all_cons] at hc ⊢
      simp [hc, hu, setupSafeEv]

theorem downloadCache_all_teardownSafe (defs : List (String × Cache)) (env : StepEnv)
    (name : String) : ((downloadCache defs env name).2.all teardownSafeEv) = true := by
  unfold downloadCache
  repeat' split
  all_goals
    first
    | rfl
    | simp [List.all_append, List.all_map, teardownSafeEv, Function.comp]

theorem downloadCaches_all_teardownSafe (defs : List (String × Cache)) (env : StepEnv)
    (names : List String) :
    ((downloadCaches defs env names).2.all teardownSafeEv) = true := by
  induction names with
  | nil => rfl
  | cons n rest ih =>
    unfold downloadCaches
    have ht := downloadCache_all_teardownSafe defs env n
    rcases h : downloadCache defs env n with ⟨r, t⟩
    rw [h] at ht
    cases r with
    | error e => simpa using ht
    | ok u => simp [List.all_append, ht, ih]

theorem downloadCache_calls (defs : List (String × Cache)) (env : StepEnv)
    (name : String) :
    (downloadCache defs env name).2.filterMap Ev.downloadCallName = [name] := by
  unfold downloadCache
  repeat' split
  all_goals
    first
    | rfl
    | simp [List.filterMap_append, List.filterMap_map, Ev.downloadCallName, Function.comp]

theorem downloadCaches_calls (defs : List (String × Cache)) (env : StepEnv)
    (names : List String) (h : (downloadCaches defs env names).1 = .ok ()) :
    (downloadCaches defs env names).2.filterMap Ev.downloadCallName = names := by
  induction names with
  | nil => rfl
  | cons n rest ih =>
    unfold downloadCaches at h ⊢
    have hc := downloadCache_calls defs env n
    rcases hd : downloadCache defs env n with ⟨r, t⟩
    rw [hd] at h hc
    cases r with
    | error e => simp at h
    | ok u =>
      simp only at h
      rw [List.filterMap_append, hc, ih h]
      rfl

theorem buildTeardown_all_body (step : Step) (defs : Pipelines) (env : StepEnv)
    (ec : Int) : ((buildTeardown step defs env ec).2.all bodyEv) = true := by
  have hd := all_imp (fun a => teardownSafeEv_body)
    (downloadCaches defs.caches env step.caches).2
    (downloadCaches_all_teardownSafe defs.caches env step.caches)
  unfold buildTeardown downloadCachesStep
  by_cases hec : (ec == 0) = true
  · rw [if_pos hec]
    rcases h : downloadCaches defs.caches env step.caches with ⟨r, t⟩
    rw [h] at hd
    cases r with
    | error e => simpa using hd
    | ok u =>
      dsimp only
      split
      · simp only [List.all_append] at hd ⊢
        simp [hd, bodyEv]
      · simp only [List.all_append] at hd ⊢
        simp [hd, bodyEv]
  · rw [if_neg hec]
    dsimp only
    split
    all_goals rfl

theorem tryBody_all_body (step : Step) (defs : Pipelines) (env : StepEnv) :
    ((tryBody step defs env).2.all bodyEv) = true := by
  have hs := all_imp (fun a => setupSafeEv_body) (buildSetup step defs env).2
    (buildSetup_all_setupSafe step defs env)
  have ht := buildTeardown_all_body step defs env env.scriptExit
  unfold tryBody
  split
  · rfl
  split
  · rfl
  rcases h : buildSetup step defs env with ⟨r, ts⟩
  rw [h] at hs
  cases r with
  | error e =>
    simp only [List.all_append, List.all_cons] at hs ⊢
    simp [hs, bodyEv]
  | ok u =>
    dsimp only
    split
    · simp only [List.all_append, List.all_cons] at hs ⊢
      simp [hs, bodyEv]
    · split
      · simp only [List.all_append, List.all_cons] at hs ⊢
        simp [hs, bodyEv]
      · rcases h2 : buildTeardown step defs env env.scriptExit with ⟨r2, t2⟩
        rw [h2] at ht
        cases r2 with
        | error e =>
          simp only [List.all_append, List.all_cons] at hs ht ⊢
          simp [hs, ht, bodyEv]
        | ok u2 =>
          simp only [List.all_append, List.all_cons] at hs ht ⊢
          simp [hs, ht, bodyEv]

theorem finallyBlock_events (b : Bool) (env : StepEnv) :
    ∀ ev ∈ (finallyBlock b env).2, ev = Ev.stopServices ∨ ev = Ev.containerStop := by
  unfold finallyBlock
  repeat' split
  all_goals simp

theorem find?_append_or {α : Type} (p : α → Bool) (l1 l2 : List α) :
    (l1 ++ l2).find? p =
      match l1.find? p with
      | some a => some a
      | none => l2.find? p := by
  induction l1 with
  | nil => simp
  | cons a l ih =>
    cases hpa : p a
    · simp [List.find?_cons, hpa, ih]
    · simp [List.find?_cons, hpa]

theorem parallelRunAux_result (pU sU : Nat) (rcs : List (Option Int)) :
    ∀ acc : Int, (parallelRunAux pU sU acc rcs).1 =
      match (rcs.reverse.filterMap id).find? (fun e => e != 0) with
      | some e => e
      | none => acc := by
  induction rcs with
  | nil => intro acc; rfl
  | cons rc rest ih =>
    intro acc
    have hrev : (rc :: rest).reverse.filterMap id =
        rest.reverse.filterMap id ++ (id rc).toList := by
      simp [List.filterMap_append, Option.toList]
      cases rc <;> simp
    simp only [parallelRunAux]
    rw [ih, hrev, find?_append_or]
    cases hfind : (rest.reverse.filterMap id).find? (fun e => e != 0) with
    | some e => rfl
    | none =>
      cases rc with
      | none => rfl
      | some v =>
        by_cases hv : v = 0
        · subst hv; rfl
        · simp [Option.toList, List.find?_cons, bne_iff_ne, hv]

theorem parallelRunAux_ids (pU sU : Nat) (rcs : List (Option Int)) :
    ∀ acc : Int, (parallelRunAux pU sU acc rcs).2 = rcs.map (fun _ => (pU, sU)) := by
  induction rcs with
  | nil => intro acc; rfl
  | cons rc rest ih =>
    intro acc
    simp only [parallelRunAux, List.map_cons]
    rw [ih]

/-- Clone settings with every field unset. -/
def unsetClone : CloneSettings := ⟨none, none, none⟩

/-- Clone settings with checkout disabled at the step level. -/
def disabledClone : CloneSettings := ⟨some false, none, none⟩

/-- Concrete step used by the closed-instance theorems. -/
def exStep : Step :=
  { name := "build", script := ["make"], afterScript := [], image := none,
    cloneSettings := unsetClone, size := 1, services := [], caches := [],
    artifacts := ["dist"] }

/-- Concrete step with checkout disabled and one declared cache. -/
def exStepNoClone : Step :=
  { exStep with cloneSettings := disabledClone, caches := ["pip"] }

/-- Concrete definitions with one cache named pip. -/
def exDefs : Pipelines :=
  { image := none, cloneSettings := unsetClone, caches := [("pip", ⟨"cachepath"⟩)] }

/-- Baseline environment in which every collaborator call succeeds. -/
def baseEnv : StepEnv :=
  { selectedSteps := [], startServicesRaises := false, containerStartRaises := false,
    gitBranch := "main", remoteWorkspaceDir := "ws", cloneExit := 0, resetExit := 0,
    artifactsUploadRaises := false, localArchiveExists := fun _ => false,
    prepareCmdExit := fun _ => 0, putArchiveOk := fun _ => true,
    expandPath := fun p => p, getArchiveRaises := fun _ => false,
    chunkSizes := fun _ => [7], scriptRaises := false, scriptExit := 0,
    afterScriptRaises := false, artifactsDownloadRaises := false,
    stopServicesRaises := false, containerStopRaises := false }

/-- C1: the pipeline driver executes top-level steps in declaration
order and returns the first truthy (non-zero) exit code without
executing any later step: with prior steps all falsy and step number
pre.length + 1 returning the non-zero code e, the run result is e
and exactly pre.length + 1 steps were executed. -/
theorem pipeline_first_failure_wins (pre post : List (Option Int)) (e : Int)
    (hpre : ∀ rc ∈ pre, optIntTruthy rc = false) (he : e ≠ 0) :
    executePipeline (pre ++ some e :: post) = (some e, pre.length + 1) := by
  induction pre with
  | nil =>
    simp [executePipeline, optIntTruthy, bne_iff_ne, he]
  | cons rc rest ih =>
    have h1 : optIntTruthy rc = false := hpre rc (by simp)
    have h2 : ∀ x ∈ rest, optIntTruthy x = false := fun x hx => hpre x (by simp [hx])
    simp [executePipeline, h1, ih h2]

/-- Witness for C1 at the spec instance: steps [A, B, C] with A
exiting 0 and B exiting 5 give run result 5 with C never executed. -/
theorem pipeline_first_failure_wins_witness :
    executePipeline [some 0, some 5, some 0] = (some 5, 2) := by
  have h := pipeline_first_failure_wins [some 0] [some 0] 5 (by decide) (by decide)
  simpa using h

/-- C4: the parallel branch executor runs every child in declared
order regardless of earlier failures (it dispatches exactly one
child runner per child), and its result is the last-seen non-zero
child exit code, or zero when all children succeed; in particular
children exiting 0, 3, 0 all execute and the group result is 3. -/
theorem parallel_reduces_to_last_nonzero (pU sU : Nat) (rcs : List (Option Int)) :
    (parallelRun pU sU rcs).1 = lastNonZeroResult rcs ∧
    (parallelRun pU sU rcs).2.length = rcs.length ∧
    (parallelRun 0 0 [some 0, some 3, some 0]).1 = 3 ∧
    (parallelRun 0 0 [some 0, some 3, some 0]).2.length = 3 := by
  refine ⟨?_, ?_, by decide, by decide⟩
  · rw [parallelRun, parallelRunAux_result pU sU rcs 0, lastNonZeroResult]
  · rw [parallelRun, parallelRunAux_ids pU sU rcs 0, List.length_map]

/-- C9 counterexample: a parallel group with pipeline uuid 1, its
own step uuid 7 and two children hands every child the identity
pair (1, 7): the two sibling identities coincide with each other and
with the step identifier of the group itself, contradicting the
claimed fresh, pairwise distinct per-child identities. -/
theorem parallel_child_identity_counterexample :
    (parallelRun 1 7 [some 0, some 0]).2 = [(1, 7), (1, 7)] ∧
    (parallelRun 1 7 [some 0, some 0]).2.get? 0 =
      (parallelRun 1 7 [some 0, some 0]).2.get? 1 ∧
    (parallelRun 1 7 [some 0, some 0]).2.get? 0 = some (1, 7) := by
  decide

/-- C9 amended: every child executed by the parallel branch executor
shares the parent pipeline-run identifier and also reuses the
parallel group step-run identifier itself; no fresh per-child
identity is generated. -/
theorem parallel_children_reuse_group_identity (pU sU : Nat) (rcs : List (Option Int)) :
    (parallelRun pU sU rcs).2 = rcs.map (fun _ => (pU, sU)) :=
  parallelRunAux_ids pU sU rcs 0

/-- C8: each clone-settings field resolves independently as the
first non-unset value in the order step override, pipeline default,
system default; step depth unset with pipeline depth 10 gives 10,
step depth 3 with pipeline depth 10 gives 3, and all-unset gives the
system default of full history, in which case the built clone
command carries no depth argument. -/
theorem clone_settings_cascade :
    (∀ s d : CloneSettings,
      shouldCloneOpt s d = cascade s.enabled d.enabled CloneSettings.default.enabled ∧
      shouldCloneLfsOpt s d = cascade s.lfs d.lfs CloneSettings.default.lfs ∧
      getCloneDepth s d = cascade s.depth d.depth CloneSettings.default.depth) ∧
    (∀ se sl de dl, getCloneDepth ⟨se, sl, none⟩ ⟨de, dl, some 10⟩ = some 10) ∧
    (∀ se sl de dl, getCloneDepth ⟨se, sl, some 3⟩ ⟨de, dl, some 10⟩ = some 3) ∧
    getCloneDepth unsetClone unsetClone = CloneSettings.default.depth ∧
    (∀ lfs branch ws, buildCloneCmd lfs none branch ws =
      (if lfs then [] else ["GIT_LFS_SKIP_SMUDGE=1"]) ++
        ["git", "clone", "--branch", branch, "file://" ++ ws, "$BUILD_DIR"]) := by
  refine ⟨?_, fun se sl de dl => rfl, fun se sl de dl => rfl, rfl, ?_⟩
  · rintro ⟨se, sl, sd⟩ ⟨de, dl, dd⟩
    refine ⟨?_, ?_, ?_⟩
    · cases se <;> cases de <;> rfl
    · cases sl <;> cases dl <;> rfl
    · cases sd <;> cases dd <;> rfl
  · intro lfs branch ws
    cases lfs <;> rfl

theorem stepRun_trace (step : Step) (defs : Pipelines) (env : StepEnv)
    (hsel : shouldRunStep env.selectedSteps step.name = true) :
    (stepRun step defs env).2 =
      (tryBody step defs env).2 ++ (finallyBlock (!env.startServicesRaises) env).2 := by
  rcases hb : tryBody step defs env with ⟨br, bt⟩
  rcases hf : finallyBlock (!env.startServicesRaises) env with ⟨fr, ft⟩
  cases fr <;> cases br <;> simp [stepRun, hsel, hb, hf]

theorem stepRun_result_of_finally_ok (step : Step) (defs : Pipelines) (env : StepEnv)
    (hsel : shouldRunStep env.selectedSteps step.name = true)
    (hfin : (finallyBlock (!env.startServicesRaises) env).1 = .ok ()) :
    (stepRun step defs env).1 =
      match (tryBody step defs env).1 with
      | .error e => .error e
      | .ok ec => .ok (some ec) := by
  rcases hb : tryBody step defs env with ⟨br, bt⟩
  rcases hf : finallyBlock (!env.startServicesRaises) env with ⟨fr, ft⟩
  rw [hf] at hfin
  cases fr with
  | error e => simp at hfin
  | ok u => cases br <;> simp [stepRun, hsel, hb, hf]

theorem finallyBlock_dcn (b : Bool) (env : StepEnv) :
    (finallyBlock b env).2.filterMap Ev.downloadCallName = [] := by
  unfold finallyBlock
  repeat' split
  all_goals rfl

theorem finallyBlock_no_warn (b : Bool) (env : StepEnv) :
    Ev.warnSkipCaches ∉ (finallyBlock b env).2 := by
  unfold finallyBlock
  repeat' split
  all_goals simp

/-- C2: for a non-skipped step whose services were started (so both
the services and the main container were acquired) and whose release
calls themselves do not raise, every exit path of the lifecycle ends
by stopping the services and the container exactly once each, after
every other collaborator event; and an error raised by the try-block
(checkout, cache transfer, script, or any other stage) propagates
out of the step only after that release. -/
theorem step_resources_released_once (step : Step) (defs : Pipelines) (env : StepEnv)
    (hsel : shouldRunStep env.selectedSteps step.name = true)
    (hss : env.startServicesRaises = false)
    (hstop : env.stopServicesRaises = false)
    (hcstop : env.containerStopRaises = false) :
    ∃ pre, (stepRun step defs env).2 = pre ++ [Ev.stopServices, Ev.containerStop] ∧
      Ev.stopServices ∉ pre ∧ Ev.containerStop ∉ pre ∧
      ∀ e : Err, (tryBody step defs env).1 = Except.error e →
        (stepRun step defs env).1 = Except.error e := by
  have hbody := tryBody_all_body step defs env
  have hfin : finallyBlock (!env.startServicesRaises) env =
      (.ok (), [Ev.stopServices, Ev.containerStop]) := by
    simp [finallyBlock, hss, hstop, hcstop]
  have htr := stepRun_trace step defs env hsel
  have hres := stepRun_result_of_finally_ok step defs env hsel (by rw [hfin])
  refine ⟨(tryBody step defs env).2, ?_, ?_, ?_, ?_⟩
  · rw [htr, hfin]
  · exact not_mem_of_all rfl (tryBody step defs env).2 hbody
  · exact not_mem_of_all rfl (tryBody step defs env).2 hbody
  · intro e he
    rw [hres, he]

/-- Witness for C2: with the script raising an unexpected error
after services and container started, the trace ends with exactly
one service stop and one container stop and the error propagates. -/
theorem step_resources_released_once_witness :
    ∃ pre, (stepRun exStepNoClone exDefs { baseEnv with scriptRaises := true }).2 =
        pre ++ [Ev.stopServices, Ev.containerStop] ∧
      Ev.stopServices ∉ pre ∧ Ev.containerStop ∉ pre ∧
      ∀ e : Err,
        (tryBody exStepNoClone exDefs { baseEnv with scriptRaises := true }).1 =
          Except.error e →
        (stepRun exStepNoClone exDefs { baseEnv with scriptRaises := true }).1 =
          Except.error e :=
  step_resources_released_once exStepNoClone exDefs
    { baseEnv with scriptRaises := true } (by decide) rfl rfl rfl

/-- C3 counterexample: in a run where stopping the services raises,
the container stop is never attempted: the release trace holds one
service-stop event and zero container-stop events and the
service-stop error propagates, contradicting the claim that neither
release failure suppresses the other attempt. -/
theorem release_suppression_counterexample :
    (stepRun exStepNoClone exDefs { baseEnv with stopServicesRaises := true }).1 =
      Except.error Err.stopServicesError ∧
    (stepRun exStepNoClone exDefs
      { baseEnv with stopServicesRaises := true }).2.count Ev.stopServices = 1 ∧
    (stepRun exStepNoClone exDefs
      { baseEnv with stopServicesRaises := true }).2.count Ev.containerStop = 0 := by
  refine ⟨rfl, by decide, by decide⟩

/-- C3 amended: in the release phase of a non-skipped step whose
services were started, the service stop is attempted exactly once on
every path; when it does not raise, the container stop is also
attempted exactly once, and a container-stop failure cannot suppress
the service stop, which has already run; but when the service stop
raises, the container stop is never attempted. -/
theorem release_attempts (step : Step) (defs : Pipelines) (env : StepEnv)
    (hsel : shouldRunStep env.selectedSteps step.name = true)
    (hss : env.startServicesRaises = false) :
    (stepRun step defs env).2.count Ev.stopServices = 1 ∧
    (env.stopServicesRaises = false →
      (stepRun step defs env).2.count Ev.containerStop = 1) ∧
    (env.stopServicesRaises = true →
      (stepRun step defs env).2.count Ev.containerStop = 0) := by
  have hbody := tryBody_all_body step defs env
  have h0 : (tryBody step defs env).2.count Ev.stopServices = 0 :=
    List.count_eq_zero.mpr (not_mem_of_all rfl (tryBody step defs env).2 hbody)
  have h0c : (tryBody step defs env).2.count Ev.containerStop = 0 :=
    List.count_eq_zero.mpr (not_mem_of_all rfl (tryBody step defs env).2 hbody)
  have htr := stepRun_trace step defs env hsel
  by_cases hstop : env.stopServicesRaises = true
  · have hfin : (finallyBlock (!env.startServicesRaises) env).2 = [Ev.stopServices] := by
      simp [finallyBlock, hstop]
    rw [htr, hfin]
    refine ⟨?_, fun hc => absurd hstop (by rw [hc]; exact Bool.false_ne_true), fun hc => ?_⟩
    · rw [List.count_append, h0]
      rfl
    · rw [List.count_append, h0c]
      rfl
  · have hstopf : env.stopServicesRaises = false := by
      cases henv : env.stopServicesRaises
      · rfl
      · exact absurd henv hstop
    have hfin : (finallyBlock (!env.startServicesRaises) env).2 =
        [Ev.stopServices, Ev.containerStop] := by
      rw [hss]
      by_cases hcstop : env.containerStopRaises = true <;>
        simp [finallyBlock, hstopf, hcstop]
    rw [htr, hfin]
    refine ⟨?_, fun hc => ?_, fun hc => absurd hc hstop⟩
    · rw [List.count_append, h0]
      rfl
    · rw [List.count_append, h0c]
      rfl

/-- Witness for the amended C3 theorem at a run in which every stop
succeeds. -/
theorem release_attempts_witness :
    (stepRun exStepNoClone exDefs baseEnv).2.count Ev.stopServices = 1 ∧
    (baseEnv.stopServicesRaises = false →
      (stepRun exStepNoClone exDefs baseEnv).2.count Ev.containerStop = 1) ∧
    (baseEnv.stopServicesRaises = true →
      (stepRun exStepNoClone exDefs baseEnv).2.count Ev.containerStop = 0) :=
  release_attempts exStepNoClone exDefs baseEnv (by decide) rfl

/-- C5 counterexample: with checkout enabled and the clone command
exiting non-zero, the step fails with the checkout error but no
artifact download (artifact persist) event ever appears in the
trace: teardown is not attempted, contradicting the claim that
artifact persist is still attempted before the error leaves the
step. -/
theorem checkout_error_counterexample :
    optTruthy (shouldCloneOpt exStep.cloneSettings exDefs.cloneSettings) = true ∧
    (stepRun exStep exDefs { baseEnv with cloneExit := 1 }).1 =
      Except.error Err.cloneError ∧
    Ev.artifactsDownload exStep.artifacts ∉
      (stepRun exStep exDefs { baseEnv with cloneExit := 1 }).2 := by
  refine ⟨rfl, rfl, ?_⟩
  intro h
  have htr : (stepRun exStep exDefs { baseEnv with cloneExit := 1 }).2 =
      [Ev.startServices, Ev.containerStart,
        Ev.runCmd (buildCloneCmd true none "main" "ws"),
        Ev.stopServices, Ev.containerStop] := rfl
  rw [htr] at h
  simp [exStep] at h

/-- C5 amended: a non-zero clone command or a non-zero reset command
during checkout is fatal to the step: the step result is the
corresponding checkout error, the release phase (service stop and
container stop) still runs before the error propagates, but build
teardown is not attempted: the trace contains no artifact download
and no cache download invocation. -/
theorem checkout_error_aborts_step (step : Step) (defs : Pipelines) (env : StepEnv)
    (hsel : shouldRunStep env.selectedSteps step.name = true)
    (hss : env.startServicesRaises = false)
    (hcs : env.containerStartRaises = false)
    (hclone : optTruthy (shouldCloneOpt step.cloneSettings defs.cloneSettings) = true)
    (hfail : env.cloneExit ≠ 0 ∨ env.resetExit ≠ 0)
    (hstop : env.stopServicesRaises = false)
    (hcstop : env.containerStopRaises = false) :
    (env.cloneExit ≠ 0 →
      (stepRun step defs env).1 = Except.error Err.cloneError ∧
      (stepRun step defs env).2 =
        [Ev.startServices, Ev.containerStart,
          Ev.runCmd (buildCloneCmd
            (optTruthy (shouldCloneLfsOpt step.cloneSettings defs.cloneSettings))
            (getCloneDepth step.cloneSettings defs.cloneSettings)
            env.gitBranch env.remoteWorkspaceDir),
          Ev.stopServices, Ev.containerStop]) ∧
    (env.cloneExit = 0 → env.resetExit ≠ 0 →
      (stepRun step defs env).1 = Except.error Err.resetError ∧
      (stepRun step defs env).2 =
        [Ev.startServices, Ev.containerStart,
          Ev.runCmd (buildCloneCmd
            (optTruthy (shouldCloneLfsOpt step.cloneSettings defs.cloneSettings))
            (getCloneDepth step.cloneSettings defs.cloneSettings)
            env.gitBranch env.remoteWorkspaceDir),
          Ev.runCmd ["git", "reset", "--hard", "$BITBUCKET_COMMIT"],
          Ev.stopServices, Ev.containerStop]) ∧
    (∀ pats, Ev.artifactsDownload pats ∉ (stepRun step defs env).2) ∧
    (∀ n, Ev.cacheDownloadCall n ∉ (stepRun step defs env).2) := by
  have hfin : finallyBlock (!env.startServicesRaises) env =
      (.ok (), [Ev.stopServices, Ev.containerStop]) := by
    simp [finallyBlock, hss, hstop, hcstop]
  have htr := stepRun_trace step defs env hsel
  have hres := stepRun_result_of_finally_ok step defs env hsel (by rw [hfin])
  by_cases hc : env.cloneExit = 0
  · have hr : env.resetExit ≠ 0 := by
      rcases hfail with h | h
      · exact absurd hc h
      · exact h
    have hcl : cloneRepository step defs env =
        (.error .resetError,
          [Ev.runCmd (buildCloneCmd
            (optTruthy (shouldCloneLfsOpt step.cloneSettings defs.cloneSettings))
            (getCloneDepth step.cloneSettings defs.cloneSettings)
            env.gitBranch env.remoteWorkspaceDir),
          Ev.runCmd ["git", "reset", "--hard", "$BITBUCKET_COMMIT"]]) := by
      unfold cloneRepository
      rw [hclone]
      simp [hc, hr]
    have hbs : buildSetup step defs env =
        (.error .resetError,
          [Ev.runCmd (buildCloneCmd
            (optTruthy (shouldCloneLfsOpt step.cloneSettings defs.cloneSettings))
            (getCloneDepth step.cloneSettings defs.cloneSettings)
            env.gitBranch env.remoteWorkspaceDir),
          Ev.runCmd ["git", "reset", "--hard", "$BITBUCKET_COMMIT"]]) := by
      unfold buildSetup
      rw [hcl]
    have htb : tryBody step defs env =
        (.error .resetError,
          [Ev.startServices, Ev.containerStart,
            Ev.runCmd (buildCloneCmd
              (optTruthy (shouldCloneLfsOpt step.cloneSettings defs.cloneSettings))
              (getCloneDepth step.cloneSettings defs.cloneSettings)
              env.gitBranch env.remoteWorkspaceDir),
            Ev.runCmd ["git", "reset", "--hard", "$BITBUCKET_COMMIT"]]) := by
      simp [tryBody, hss, hcs, hbs]
    rw [htb] at hres
    rw [htb, hfin] at htr
    simp only at hres
    simp only [List.cons_append, List.nil_append] at htr
    refine ⟨fun h => absurd hc h, fun h1 h2 => ⟨hres, htr⟩, ?_, ?_⟩
    · intro pats h
      rw [htr] at h
      simp at h
    · intro n h
      rw [htr] at h
      simp at h
  · have hcne : env.cloneExit ≠ 0 := hc
    have hcl : cloneRepository step defs env =
        (.error .cloneError, [Ev.runCmd (buildCloneCmd
          (optTruthy (shouldCloneLfsOpt step.cloneSettings defs.cloneSettings))
          (getCloneDepth step.cloneSettings defs.cloneSettings)
          env.gitBranch env.remoteWorkspaceDir)]) := by
      unfold cloneRepository
      rw [hclone]
      simp [hcne]
    have hbs : buildSetup step defs env =
        (.error .cloneError, [Ev.runCmd (buildCloneCmd
          (optTruthy (shouldCloneLfsOpt step.cloneSettings defs.cloneSettings))
          (getCloneDepth step.cloneSettings defs.cloneSettings)
          env.gitBranch env.remoteWorkspaceDir)]) := by
      unfold buildSetup
      rw [hcl]
    have htb : tryBody step defs env =
        (.error .cloneError,
          [Ev.startServices, Ev.containerStart,
            Ev.runCmd (buildCloneCmd
              (optTruthy (shouldCloneLfsOpt step.cloneSettings defs.cloneSettings))
              (getCloneDepth step.cloneSettings defs.cloneSettings)
              env.gitBranch env.remoteWorkspaceDir)]) := by
      simp [tryBody, hss, hcs, hbs]
    rw [htb] at hres
    rw [htb, hfin] at htr
    simp only at hres
    simp only [List.cons_append, List.nil_append] at htr
    refine ⟨fun h => ⟨hres, htr⟩, fun h1 h2 => absurd h1 hc, ?_, ?_⟩
    · intro pats h
      rw [htr] at h
      simp at h
    · intro n h
      rw [htr] at h
      simp at h

/-- Environment in which the clone command succeeds but the reset
command fails. -/
def envResetFail : StepEnv :=
  { baseEnv with resetExit := 1 }

/-- Witness for the amended C5 theorem at a concrete run whose reset
command fails after a successful clone. -/
theorem checkout_error_aborts_step_witness :
    (envResetFail.cloneExit ≠ 0 →
      (stepRun exStep exDefs envResetFail).1 = Except.error Err.cloneError ∧
      (stepRun exStep exDefs envResetFail).2 =
        [Ev.startServices, Ev.containerStart,
          Ev.runCmd (buildCloneCmd
            (optTruthy (shouldCloneLfsOpt exStep.cloneSettings exDefs.cloneSettings))
            (getCloneDepth exStep.cloneSettings exDefs.cloneSettings)
            envResetFail.gitBranch envResetFail.remoteWorkspaceDir),
          Ev.stopServices, Ev.containerStop]) ∧
    (envResetFail.cloneExit = 0 → envResetFail.resetExit ≠ 0 →
      (stepRun exStep exDefs envResetFail).1 = Except.error Err.resetError ∧
      (stepRun exStep exDefs envResetFail).2 =
        [Ev.startServices, Ev.containerStart,
          Ev.runCmd (buildCloneCmd
            (optTruthy (shouldCloneLfsOpt exStep.cloneSettings exDefs.cloneSettings))
            (getCloneDepth exStep.cloneSettings exDefs.cloneSettings)
            envResetFail.gitBranch envResetFail.remoteWorkspaceDir),
          Ev.runCmd ["git", "reset", "--hard", "$BITBUCKET_COMMIT"],
          Ev.stopServices, Ev.containerStop]) ∧
    (∀ pats, Ev.artifactsDownload pats ∉ (stepRun exStep exDefs envResetFail).2) ∧
    (∀ n, Ev.cacheDownloadCall n ∉ (stepRun exStep exDefs envResetFail).2) :=
  checkout_error_aborts_step exStep exDefs envResetFail
    (by decide) rfl rfl rfl (Or.inr (by decide)) rfl rfl

/-- C6 counterexample: the unknown, non-ignored cache name mystery
with no local archive is silently skipped by upload: no error is
raised and no transfer is attempted, contradicting the claim that
every unknown name raises a configuration error on both methods. -/
theorem unknown_cache_silent_skip_counterexample :
    shouldIgnore "mystery" = false ∧
    List.lookup "mystery" exDefs.caches = none ∧
    ({ baseEnv with localArchiveExists := fun _ => false } :
      StepEnv).localArchiveExists "mystery" = false ∧
    (uploadCache exDefs.caches baseEnv "mystery").1 = Except.ok () ∧
    (uploadCache exDefs.caches baseEnv "mystery").2 = [Ev.cacheUploadCall "mystery"] :=
  ⟨rfl, rfl, rfl, rfl, rfl⟩

/-- C6 amended: a cache name outside the ignore-set and absent from
the cache definitions raises the configuration error before any
transfer attempt on every download, and on upload whenever a local
archive for the name exists; but an upload of such a name with no
local archive is silently skipped, with no error and no transfer. -/
theorem unknown_cache_fail_fast (defs : List (String × Cache)) (env : StepEnv)
    (name : String) (hig : shouldIgnore name = false)
    (hdef : List.lookup name defs = none) :
    ((downloadCache defs env name).1 = Except.error (Err.invalidCache name) ∧
      (downloadCache defs env name).2 = [Ev.cacheDownloadCall name]) ∧
    (env.localArchiveExists name = true →
      (uploadCache defs env name).1 = Except.error (Err.invalidCache name) ∧
      (uploadCache defs env name).2 = [Ev.cacheUploadCall name]) ∧
    (env.localArchiveExists name = false →
      (uploadCache defs env name).1 = Except.ok () ∧
      (uploadCache defs env name).2 = [Ev.cacheUploadCall name]) := by
  refine ⟨⟨?_, ?_⟩, fun hl => ⟨?_, ?_⟩, fun hl => ⟨?_, ?_⟩⟩ <;>
    simp [downloadCache, uploadCache, getRemoteDirectory, hig, hdef, *]

/-- Witness for the amended C6 theorem at the undefined name
mystery. -/
theorem unknown_cache_fail_fast_witness :
    ((downloadCache exDefs.caches baseEnv "mystery").1 =
        Except.error (Err.invalidCache "mystery") ∧
      (downloadCache exDefs.caches baseEnv "mystery").2 =
        [Ev.cacheDownloadCall "mystery"]) ∧
    (baseEnv.localArchiveExists "mystery" = true →
      (uploadCache exDefs.caches baseEnv "mystery").1 =
        Except.error (Err.invalidCache "mystery") ∧
      (uploadCache exDefs.caches baseEnv "mystery").2 =
        [Ev.cacheUploadCall "mystery"]) ∧
    (baseEnv.localArchiveExists "mystery" = false →
      (uploadCache exDefs.caches baseEnv "mystery").1 = Except.ok () ∧
      (uploadCache exDefs.caches baseEnv "mystery").2 =
        [Ev.cacheUploadCall "mystery"]) :=
  unknown_cache_fail_fast exDefs.caches baseEnv "mystery" rfl rfl

/-- Environment in which the container archive stream raises. -/
def envArchiveFail : StepEnv :=
  { baseEnv with getArchiveRaises := fun _ => true }

/-- C10: for a defined, non-ignored cache name, download opens (and
truncates) the local archive file strictly before requesting the
archive stream from the container; when the archive request raises,
the truncating open has already happened and the error propagates:
download is not atomic on error. -/
theorem download_truncates_before_fetch (defs : List (String × Cache)) (env : StepEnv)
    (name : String) (c : Cache) (hig : shouldIgnore name = false)
    (hdef : List.lookup name defs = some c) :
    (∃ rest, (downloadCache defs env name).2 =
      Ev.cacheDownloadCall name :: Ev.cacheOpenWrite name ::
        Ev.cacheGetArchive name :: rest) ∧
    (env.getArchiveRaises name = true →
      (downloadCache defs env name).1 = Except.error (Err.getArchiveError name) ∧
      (downloadCache defs env name).2 =
        [Ev.cacheDownloadCall name, Ev.cacheOpenWrite name, Ev.cacheGetArchive name]) := by
  constructor
  · by_cases hga : env.getArchiveRaises name = true
    · exact ⟨[], by simp [downloadCache, getRemoteDirectory, hig, hdef, hga]⟩
    · refine ⟨(env.chunkSizes name).map (Ev.cacheWriteChunk name), ?_⟩
      simp [downloadCache, getRemoteDirectory, hig, hdef, hga]
  · intro hga
    constructor <;> simp [downloadCache, getRemoteDirectory, hig, hdef, hga]

/-- Witness for C10 at cache pip with a failing archive stream. -/
theorem download_truncates_before_fetch_witness :
    (∃ rest, (downloadCache exDefs.caches envArchiveFail "pip").2 =
      Ev.cacheDownloadCall "pip" :: Ev.cacheOpenWrite "pip" ::
        Ev.cacheGetArchive "pip" :: rest) ∧
    (envArchiveFail.getArchiveRaises "pip" = true →
      (downloadCache exDefs.caches envArchiveFail "pip").1 =
        Except.error (Err.getArchiveError "pip") ∧
      (downloadCache exDefs.caches envArchiveFail "pip").2 =
        [Ev.cacheDownloadCall "pip", Ev.cacheOpenWrite "pip",
          Ev.cacheGetArchive "pip"]) :=
  download_truncates_before_fetch exDefs.caches envArchiveFail "pip"
    ⟨"cachepath"⟩ rfl rfl

/-- C7: for a step that reaches teardown (acquire, setup, script and
after-script all complete) with healthy cache downloads, cache
persist happens exactly when the script exit code is zero: with exit
code zero the trace contains one cache-download invocation per
declared cache, in declaration order, and no skip warning; with a
non-zero exit code it contains no cache-download invocation and a
skip warning. -/
theorem cache_persist_iff_script_success (step : Step) (defs : Pipelines) (env : StepEnv)
    (hsel : shouldRunStep env.selectedSteps step.name = true)
    (hss : env.startServicesRaises = false)
    (hcs : env.containerStartRaises = false)
    (hsetup : (buildSetup step defs env).1 = Except.ok ())
    (hscript : env.scriptRaises = false)
    (hafter : env.afterScriptRaises = false)
    (hdl : (downloadCaches defs.caches env step.caches).1 = Except.ok ()) :
    (env.scriptExit = 0 →
      (stepRun step defs env).2.filterMap Ev.downloadCallName = step.caches ∧
      Ev.warnSkipCaches ∉ (stepRun step defs env).2) ∧
    (env.scriptExit ≠ 0 →
      (stepRun step defs env).2.filterMap Ev.downloadCallName = [] ∧
      Ev.warnSkipCaches ∈ (stepRun step defs env).2) := by
  have hsetupAll := buildSetup_all_setupSafe step defs env
  rcases hbs : buildSetup step defs env with ⟨bsr, bst⟩
  rw [hbs] at hsetup hsetupAll
  cases bsr with
  | error e => simp at hsetup
  | ok u =>
  have htbt : (tryBody step defs env).2 =
      Ev.startServices :: Ev.containerStart :: bst ++
        Ev.script :: Ev.afterScript env.scriptExit ::
          (buildTeardown step defs env env.scriptExit).2 := by
    rcases htd : buildTeardown step defs env env.scriptExit with ⟨tdr, tdt⟩
    cases tdr <;> simp [tryBody, hss, hcs, hbs, hscript, hafter, htd]
  have htr := stepRun_trace step defs env hsel
  rw [htbt] at htr
  have hbstCalls : bst.filterMap Ev.downloadCallName = [] :=
    filterMap_none_of_all (fun a => setupSafeEv_dcn) bst hsetupAll
  have hbstWarn : Ev.warnSkipCaches ∉ bst :=
    not_mem_of_all rfl bst hsetupAll
  have hftCalls := finallyBlock_dcn (!env.startServicesRaises) env
  have hftWarn := finallyBlock_no_warn (!env.startServicesRaises) env
  constructor
  · intro hec0
    have hdlAll := downloadCaches_all_teardownSafe defs.caches env step.caches
    have hdlCalls := downloadCaches_calls defs.caches env step.caches hdl
    rcases hdc : downloadCaches defs.caches env step.caches with ⟨dr, dt⟩
    rw [hdc] at hdl hdlAll hdlCalls
    cases dr with
    | error e => simp at hdl
    | ok u2 =>
    have htdt : (buildTeardown step defs env env.scriptExit).2 =
        dt ++ [Ev.artifactsDownload step.artifacts] := by
      unfold buildTeardown downloadCachesStep
      rw [if_pos (by simp [hec0] : (env.scriptExit == 0) = true)]
      rw [hdc]
      dsimp only
      split <;> rfl
    rw [htdt] at htr
    have hdtWarn : Ev.warnSkipCaches ∉ dt :=
      not_mem_of_all rfl dt hdlAll
    constructor
    · rw [htr]
      simp [List.filterMap_append, List.filterMap_cons, Ev.downloadCallName,
        hbstCalls, hdlCalls, hftCalls]
    · rw [htr]
      simp [List.mem_append, List.mem_cons, hbstWarn, hdtWarn, hftWarn]
  · intro hecne
    have htdt : (buildTeardown step defs env env.scriptExit).2 =
        [Ev.warnSkipCaches, Ev.artifactsDownload step.artifacts] := by
      unfold buildTeardown downloadCachesStep
      rw [if_neg (by simp [hecne] : ¬ (env.scriptExit == 0) = true)]
      dsimp only
      split <;> rfl
    rw [htdt] at htr
    constructor
    · rw [htr]
      simp [List.filterMap_append, List.filterMap_cons, Ev.downloadCallName,
        hbstCalls, hftCalls]
    · rw [htr]
      simp

/-- Witness for C7 at a concrete run with one declared cache and
script exit code zero. -/
theorem cache_persist_iff_script_success_witness :
    (baseEnv.scriptExit = 0 →
      (stepRun exStepNoClone exDefs baseEnv).2.filterMap Ev.downloadCallName =
        exStepNoClone.caches ∧
      Ev.warnSkipCaches ∉ (stepRun exStepNoClone exDefs baseEnv).2) ∧
    (baseEnv.scriptExit ≠ 0 →
      (stepRun exStepNoClone exDefs baseEnv).2.filterMap Ev.downloadCallName = [] ∧
      Ev.warnSkipCaches ∈ (stepRun exStepNoClone exDefs baseEnv).2) :=
  cache_persist_iff_script_success exStepNoClone exDefs baseEnv
    (by decide) rfl rfl rfl rfl rfl rfl

end PipelineRunner
